import Mathlib

/-!
Verification of the ReXolve/PrepSeek frontend session store and request
lifecycle, shallowly embedded from `src/src/App.jsx` (the multi-session
variant) with the load/save effect of the single-session variant
(`src/unnamed/part_000`) taken into account where the claims cite it.

Messages and sessions are the plain records the JavaScript manipulates;
React `useState` state is collected into one explicit `AppState` record and
every handler becomes a pure state transformer. The network is an oracle
parameter (`NetResult`), matching the single-threaded, no-interleaving
execution model: one invocation of `handleSend` runs to completion against
one network outcome.
-/

/-- A chat message as stored in a session: `{ role, text }` (App.jsx line 192). -/
structure Message where
  role : String
  text : String
deriving Repr, DecidableEq, Inhabited

/-- A session record: `{ id, title, messages, createdAt }` (App.jsx lines 113-118). -/
structure Session where
  id : String
  title : String
  messages : List Message
  createdAt : Nat
deriving Repr, DecidableEq, Inhabited

/-- The `useState` cells of `App` (App.jsx lines 93-97) gathered into one record. -/
structure AppState where
  sessions : List Session
  currentId : String
  input : String
  loading : Bool
  error : String
deriving Repr, DecidableEq, Inhabited

/-- The default session built by the load effect, `newSession` and
`deleteSession` (App.jsx lines 113-118, 137-142, 162-167); `generateId()` and
`Date.now()` are passed in as parameters. -/
def freshSession (freshId : String) (now : Nat) : Session :=
  { id := freshId, title := "New decision", messages := [], createdAt := now }

/-- Whitespace for the purposes of JavaScript's `String.prototype.trim`
(restricted to the ASCII whitespace that can occur here). -/
def isWsChar (c : Char) : Bool :=
  c = ' ' || c = '\t' || c = '\n' || c = '\r'

/-- JavaScript `text.trim()`: strips leading and trailing whitespace. -/
def jsTrim (s : String) : String :=
  (((s.toList.dropWhile isWsChar).reverse.dropWhile isWsChar).reverse).asString

/-- JavaScript `text.slice(0, n)`: the first `n` characters. -/
def jsSlice (n : Nat) (s : String) : String :=
  (s.toList.take n).asString

/-! ## JSON model for the persistent store -/

/-- A JSON value, the result of a successful `JSON.parse`. -/
inductive JVal where
  | jnull
  | jbool (b : Bool)
  | jnum (n : Nat)
  | jstr (s : String)
  | jarr (l : List JVal)
  | jobj (fields : List (String × JVal))

/-- Content of the `localStorage` slot read by the load effect. -/
inductive Stored where
  | absent              -- `localStorage.getItem` returns null
  | corrupt             -- stored text is not valid JSON, so `JSON.parse` throws
  | val (v : JVal)      -- stored text parses to this JSON value

/-- Outcome of running the App.jsx load effect (lines 101-122) on a slot. -/
inductive LoadOutcome where
  | throws                     -- an exception escapes the effect
  | illtyped                   -- `sessions` is set to a value that is not an array
  | fresh                      -- fall through: a fresh default session is created
  | restored (raw : List JVal) -- `setSessions(parsed)` with a non-empty parsed array

/-- The App.jsx load effect (lines 101-122), by case on the stored slot.
`JSON.parse` is unguarded there (no try/catch), so invalid JSON throws; the
guard `parsed.length > 0` throws a TypeError on `null`, is false on values
with no `length` property (numbers, booleans, plain objects), and is true on
a non-empty string, which would put a non-array into `sessions`. -/
def loadApp : Stored → LoadOutcome
  | .absent => .fresh
  | .corrupt => .throws
  | .val .jnull => .throws
  | .val (.jbool _) => .fresh
  | .val (.jnum _) => .fresh
  | .val (.jobj _) => .fresh
  | .val (.jstr s) => if s.length > 0 then .illtyped else .fresh
  | .val (.jarr l) => if l.length > 0 then .restored l else .fresh

/-- Serialization of a message by `JSON.stringify` (save effect, line 125). -/
def encodeMessage (m : Message) : JVal :=
  .jobj [("role", .jstr m.role), ("text", .jstr m.text)]

/-- Serialization of a session by `JSON.stringify` (save effect, line 125). -/
def encodeSession (s : Session) : JVal :=
  .jobj [("id", .jstr s.id), ("title", .jstr s.title),
         ("messages", .jarr (s.messages.map encodeMessage)),
         ("createdAt", .jnum s.createdAt)]

/-- Structural reading of a parsed JSON value as a message: the shape the
application code accesses (`m.role`, `m.text`). -/
def decodeMessage : JVal → Option Message
  | .jobj [("role", .jstr r), ("text", .jstr t)] => some ⟨r, t⟩
  | _ => none

/-- Structural reading of a list of parsed JSON values as messages. -/
def decodeMessageList : List JVal → Option (List Message)
  | [] => some []
  | v :: vs =>
    match decodeMessage v, decodeMessageList vs with
    | some m, some ms => some (m :: ms)
    | _, _ => none

/-- Structural reading of a parsed JSON value as a session: the shape the
application code accesses (`s.id`, `s.title`, `s.messages`, `s.createdAt`). -/
def decodeSession : JVal → Option Session
  | .jobj [("id", .jstr i), ("title", .jstr t),
           ("messages", .jarr ms), ("createdAt", .jnum c)] =>
    match decodeMessageList ms with
    | some msgs => some ⟨i, t, msgs, c⟩
    | none => none
  | _ => none

/-- Structural reading of a list of parsed JSON values as sessions. -/
def decodeSessionList : List JVal → Option (List Session)
  | [] => some []
  | v :: vs =>
    match decodeSession v, decodeSessionList vs with
    | some s, some ss => some (s :: ss)
    | _, _ => none

/-- The save effect (App.jsx lines 124-126): `JSON.stringify(sessions)` is
written to the storage slot, so the slot holds the encoded session array. -/
def saveSessions (l : List Session) : Stored :=
  .val (.jarr (l.map encodeSession))

/-- The application state reached once the load effect completes, given the
fresh id / timestamp the default-session path would use. `none` when the
effect throws or sets a non-array, or when a restored element does not have
session shape (the code does no validation; such a state has no `AppState`
denotation). On restore, `currentId` is `parsed[0].id` (line 108). -/
def resolveLoad (freshId : String) (now : Nat) : LoadOutcome → Option AppState
  | .throws => none
  | .illtyped => none
  | .fresh => some { sessions := [freshSession freshId now], currentId := freshId,
                     input := "", loading := false, error := "" }
  | .restored raw =>
    match decodeSessionList raw with
    | some (s0 :: rest) => some { sessions := s0 :: rest, currentId := s0.id,
                                  input := "", loading := false, error := "" }
    | _ => none

/-! ## Session actions (App.jsx lines 136-185) -/

/-- `newSession` (lines 136-146): a fresh default session is inserted at the
front and made active. -/
def newSession (freshId : String) (now : Nat) (st : AppState) : AppState :=
  let fresh := freshSession freshId now
  { st with sessions := fresh :: st.sessions, currentId := fresh.id }

/-- `renameSession(id, title)` (lines 148-154): replaces the title of every
session whose id matches; no other field and no other session is touched. -/
def renameSession (id : String) (title : String) (st : AppState) : AppState :=
  { st with sessions :=
      st.sessions.map (fun s => if s.id = id then { s with title := title } else s) }

/-- The rename flow as invocable from the UI: `SessionRow.finishRename`
(lines 18-21) calls `onRename(value.trim())` only when `value.trim()` is
truthy (non-empty), and `onRename` is wired to `renameSession(s.id, title)`
(line 285). -/
def finishRename (id : String) (value : String) (st : AppState) : AppState :=
  if jsTrim value ≠ "" then renameSession id (jsTrim value) st else st

/-- `deleteSession(id)` (lines 156-175): after interactive confirmation,
filters the session out; an empty remainder is replaced by a single fresh
default session which becomes active; otherwise the first remaining session
becomes active (unconditionally, line 173). -/
def deleteSession (confirmed : Bool) (id : String) (freshId : String) (now : Nat)
    (st : AppState) : AppState :=
  if !confirmed then st
  else
    match st.sessions.filter (fun s => s.id ≠ id) with
    | [] =>
      let fresh := freshSession freshId now
      { st with sessions := [fresh], currentId := fresh.id }
    | r0 :: rest => { st with sessions := r0 :: rest, currentId := r0.id }

/-- `clearCurrent` (lines 177-185): after confirmation, empties the message
list of every session whose id is the active id; title and the rest of the
record are kept. -/
def clearCurrent (confirmed : Bool) (st : AppState) : AppState :=
  if !confirmed then st
  else
    { st with sessions :=
        st.sessions.map (fun s =>
          if s.id = st.currentId then { s with messages := [] } else s) }

/-- Selecting a session from the sidebar: `onSelect` is wired to
`setCurrentId(s.id)` for a rendered session `s` (line 284). -/
def selectSession (id : String) (st : AppState) : AppState :=
  { st with currentId := id }

/-! ## Request lifecycle (App.jsx lines 189-252) -/

/-- Outcome of the `fetch` to `POST {API_BASE}/ask-doubt`, as observed by
`handleSend`: a transport rejection, a non-2xx status (`!res.ok`, line 224),
a body whose `res.json()` rejects, or a parsed body with an `answer` field. -/
inductive NetResult where
  | netError
  | httpNotOk
  | badJson
  | ok (answer : String)
deriving Repr, DecidableEq

/-- The outbound request body: `updated.messages.map(m => ({role: m.role,
content: m.text}))` (lines 217-220), as ordered (role, content) pairs. -/
def requestBody (msgs : List Message) : List (String × String) :=
  msgs.map (fun m => (m.role, m.text))

/-- `handleSend` (lines 189-252) run to completion against one network
outcome. Returns the final state and the request body that was sent
(`none` when the guard at line 190 dropped the call). Result `none` models
the TypeError that line 199 would raise when `currentSession` is undefined;
the component returns early at line 130 in that case, so the UI never
invokes `handleSend` there.

The success branch maps over the `sessions` array captured by the closure
(line 243), replacing the active session wholesale with `withAnswer`, and
auto-titles exactly when `updated.messages.length === 1` (line 236), i.e.
when the message list was empty before the optimistic append; the new title
is `updated.messages[0].text.slice(0, 40) + "..."` (lines 237-238). The
catch branch keeps the optimistic append and sets the generic error message
(line 248); `finally` clears `loading` on every path (line 250). -/
def handleSend (net : NetResult) (st : AppState) :
    Option (AppState × Option (List (String × String))) :=
  if jsTrim st.input = "" ∨ st.loading = true then some (st, none)
  else
    match st.sessions.find? (fun s => s.id = st.currentId) with
    | none => none
    | some cur =>
      let userMessage : Message := { role := "user", text := jsTrim st.input }
      let updated : Session := { cur with messages := cur.messages ++ [userMessage] }
      let req := requestBody updated.messages
      match net with
      | .ok answer =>
        let withAnswer0 : Session :=
          { updated with messages := updated.messages ++ [{ role := "assistant", text := answer }] }
        let withAnswer : Session :=
          if updated.messages.length = 1 then
            { withAnswer0 with title := jsSlice 40 updated.messages.headI.text ++ "..." }
          else withAnswer0
        some ({ st with
                  sessions := st.sessions.map
                    (fun s => if s.id = st.currentId then withAnswer else s),
                  input := "", loading := false, error := "" },
              some req)
      | _ =>
        some ({ st with
                  sessions := st.sessions.map
                    (fun s => if s.id = st.currentId then updated else s),
                  input := "", loading := false,
                  error := "Something went wrong. Try again." },
              some req)

/-! ## Invariant and auxiliary definitions -/

/-- The session-store invariant: the session list is non-empty and the
active id resolves to a member of the list. -/
def StoreInv (st : AppState) : Prop :=
  st.sessions ≠ [] ∧ ∃ s ∈ st.sessions, s.id = st.currentId

instance (st : AppState) : Decidable (StoreInv st) := by
  unfold StoreInv; infer_instance

/-- Modelled from the spec: punctuation characters, for the spec's
"truncated to ~40 characters, punctuation stripped" titling policy. -/
def isPunctChar (c : Char) : Bool :=
  c = '.' || c = ',' || c = '!' || c = '?' || c = ';' || c = ':'

/-- Modelled from the spec: strip punctuation from a string, for comparison
with the title the code actually produces. -/
def stripPunct (s : String) : String :=
  (s.toList.filter (fun c => !(isPunctChar c))).asString

/-- Title of the first session of the final state of a send, `""` when the
send has no denotation; used to state concrete counterexamples. -/
def titleAfter (r : Option (AppState × Option (List (String × String)))) : String :=
  match r with
  | some (st, _) => st.sessions.headI.title
  | none => ""

/-! ## Concrete states used by witnesses and counterexamples -/

def sA : Session := { id := "a", title := "Plan A", messages := [], createdAt := 1 }

def sB : Session :=
  { id := "b", title := "Plan B", messages := [⟨"user", "hi"⟩, ⟨"assistant", "hello"⟩],
    createdAt := 2 }

def sC : Session := { id := "c", title := "Plan C", messages := [⟨"user", "q"⟩], createdAt := 3 }

/-- A three-session state whose active session is the last one. -/
def st3 : AppState :=
  { sessions := [sA, sB, sC], currentId := "c", input := "", loading := false, error := "" }

/-- A first-run state: one fresh default session, with the end-to-end
scenario's input already typed. -/
def st0 : AppState :=
  { sessions := [freshSession "s1" 0], currentId := "s1", input := "Rent or buy?",
    loading := false, error := "" }

example : loadApp Stored.corrupt = LoadOutcome.throws := rfl
example : (deleteSession true "a" "f" 9 st3).currentId = "b" := by decide
example : titleAfter (handleSend (NetResult.ok "x") st0) = "Rent or buy?..." := by decide

/-! ## Helper lemmas -/

theorem map_eq_self_of_fixed {α : Type} (l : List α) (f : α → α)
    (h : ∀ a ∈ l, f a = a) : l.map f = l := by
  induction l with
  | nil => rfl
  | cons a t ih =>
    rw [List.map_cons, h a (List.mem_cons_self a t),
        ih (fun b hb => h b (List.mem_cons_of_mem a hb))]

theorem exists_id_map (l : List Session) (f : Session → Session)
    (h : ∀ s, (f s).id = s.id) (cid : String) :
    (∃ s ∈ l.map f, s.id = cid) ↔ ∃ s ∈ l, s.id = cid := by
  simp only [List.mem_map]
  constructor
  · rintro ⟨s, ⟨t, ht, rfl⟩, hid⟩
    exact ⟨t, ht, by rw [← h t]; exact hid⟩
  · rintro ⟨t, ht, hid⟩
    exact ⟨f t, ⟨t, ht, rfl⟩, by rw [h t, hid]⟩

/-! ## C3 -/

/-- C3: the claim says the load path never throws on malformed stored data.
The App.jsx load effect (lines 101-122) calls `JSON.parse` with no
try/catch, so non-JSON stored text throws a SyntaxError, and stored `null`
throws a TypeError at `parsed.length`; only the absent slot falls through
to the fresh default. (The single-session variant in part_000 guards both
with try/catch and `Array.isArray`, which is the behavior the claim
describes.) -/
theorem c3_load_throws_on_corrupt_storage :
    loadApp Stored.corrupt = LoadOutcome.throws ∧
    loadApp (Stored.val JVal.jnull) = LoadOutcome.throws ∧
    loadApp Stored.absent = LoadOutcome.fresh :=
  ⟨rfl, rfl, rfl⟩

/-! ## C6 -/

/-- C6: when the input is blank after trimming or a send is already in
flight (`loading`), `handleSend` is a complete no-op: the state is returned
unchanged and no request is issued (App.jsx line 190). In particular a
second send issued while one is in flight is dropped, not queued. -/
theorem c6_busy_gate (net : NetResult) (st : AppState)
    (h : jsTrim st.input = "" ∨ st.loading = true) :
    handleSend net st = some (st, none) := by
  unfold handleSend
  rw [if_pos h]

/-- Witness for C6: a send issued while `loading` is set is dropped with no
state change and no request. -/
theorem c6_busy_gate_witness :
    handleSend NetResult.netError { st0 with loading := true } =
      some ({ st0 with loading := true }, none) :=
  c6_busy_gate NetResult.netError { st0 with loading := true } (Or.inr rfl)

/-! ## C4 -/

/-- C4: the rename flow (SessionRow.finishRename, lines 18-21, wired to
`renameSession`, lines 148-154) is a no-op when the candidate title is
blank after trimming; for a non-blank title it replaces the title of
exactly the sessions with the matching id (and nothing else); an id not
present in the list changes nothing, and no path can raise. -/
theorem c4_rename_contract (st : AppState) (id value : String) :
    (jsTrim value = "" → finishRename id value st = st) ∧
    (jsTrim value ≠ "" →
       finishRename id value st =
         { st with sessions := st.sessions.map (fun s =>
             if s.id = id then { s with title := jsTrim value } else s) }) ∧
    ((∀ s ∈ st.sessions, s.id ≠ id) → finishRename id value st = st) := by
  refine ⟨?_, ?_, ?_⟩
  · intro h
    simp [finishRename, h]
  · intro h
    simp [finishRename, h, renameSession]
  · intro h
    by_cases hb : jsTrim value = ""
    · simp [finishRename, hb]
    · simp only [finishRename, hb, ne_eq, not_false_eq_true, if_true, renameSession]
      have hmap : st.sessions.map
          (fun s => if s.id = id then { s with title := jsTrim value } else s) =
          st.sessions :=
        map_eq_self_of_fixed _ _ (fun s hs => by rw [if_neg (h s hs)])
      rw [hmap]

/-- Witness for C4: on the concrete three-session state, a whitespace-only
rename is a no-op, a real rename retitles only the matching session, and a
rename with an unknown id changes nothing. -/
theorem c4_rename_witness :
    finishRename "a" "   " st3 = st3 ∧
    finishRename "a" " Budget " st3 =
      { st3 with sessions := st3.sessions.map (fun s =>
          if s.id = "a" then { s with title := jsTrim " Budget " } else s) } ∧
    finishRename "zz" "Budget" st3 = st3 :=
  ⟨(c4_rename_contract st3 "a" "   ").1 (by decide),
   (c4_rename_contract st3 "a" " Budget ").2.1 (by decide),
   (c4_rename_contract st3 "zz" "Budget").2.2 (by decide)⟩

/-! ## C9 -/

theorem decodeMessage_encode (m : Message) :
    decodeMessage (encodeMessage m) = some m := rfl

theorem decodeMessageList_encode (l : List Message) :
    decodeMessageList (l.map encodeMessage) = some l := by
  induction l with
  | nil => rfl
  | cons m t ih =>
    simp only [List.map_cons, decodeMessageList, decodeMessage_encode, ih]

theorem decodeSession_encode (s : Session) :
    decodeSession (encodeSession s) = some s := by
  show (match decodeMessageList (s.messages.map encodeMessage) with
        | some msgs => some { id := s.id, title := s.title, messages := msgs,
                              createdAt := s.createdAt }
        | none => none) = some s
  rw [decodeMessageList_encode]

theorem decodeSessionList_encode (l : List Session) :
    decodeSessionList (l.map encodeSession) = some l := by
  induction l with
  | nil => rfl
  | cons s t ih =>
    simp only [List.map_cons, decodeSessionList, decodeSession_encode, ih]

/-- C9: saving a non-empty session list and then running the load effect
restores exactly that list — every session's id, title, message order and
message content — with the first stored session becoming active. -/
theorem c9_save_load_roundtrip (S : List Session) (s0 : Session) (rest : List Session)
    (hS : S = s0 :: rest) (fid : String) (now : Nat) :
    resolveLoad fid now (loadApp (saveSessions S)) =
      some { sessions := S, currentId := s0.id, input := "", loading := false,
             error := "" } := by
  subst hS
  have hlen : ((s0 :: rest).map encodeSession).length > 0 := by simp
  have h1 : loadApp (saveSessions (s0 :: rest)) =
      LoadOutcome.restored ((s0 :: rest).map encodeSession) := by
    show (if ((s0 :: rest).map encodeSession).length > 0
          then LoadOutcome.restored ((s0 :: rest).map encodeSession)
          else LoadOutcome.fresh) = _
    rw [if_pos hlen]
  rw [h1]
  show ((match decodeSessionList ((s0 :: rest).map encodeSession) with
         | some (s0 :: rest) =>
           some { sessions := s0 :: rest, currentId := s0.id,
                  input := "", loading := false, error := "" }
         | _ => none) : Option AppState) = _
  rw [decodeSessionList_encode]

/-- Witness for C9: round trip of a concrete two-session list. -/
theorem c9_save_load_roundtrip_witness :
    resolveLoad "f" 7 (loadApp (saveSessions [sA, sB])) =
      some { sessions := [sA, sB], currentId := sA.id, input := "", loading := false,
             error := "" } :=
  c9_save_load_roundtrip [sA, sB] sA [sB] rfl "f" 7

/-! ## C1 -/

theorem storeInv_resolveLoad (fid : String) (now : Nat) (o : LoadOutcome) (st : AppState)
    (h : resolveLoad fid now o = some st) : StoreInv st := by
  cases o with
  | throws => exact absurd h (by simp [resolveLoad])
  | illtyped => exact absurd h (by simp [resolveLoad])
  | fresh =>
    simp only [resolveLoad, Option.some.injEq] at h
    subst h
    exact ⟨by simp, freshSession fid now, by simp, rfl⟩
  | restored raw =>
    simp only [resolveLoad] at h
    split at h
    · next s0 rest heq =>
        injection h with h
        subst h
        exact ⟨by simp, s0, by simp, rfl⟩
    · next heq => cases h

theorem storeInv_of_session_map (st : AppState) (f : Session → Session)
    (hf : ∀ s, (f s).id = s.id) (h : StoreInv st) (st' : AppState)
    (hs : st'.sessions = st.sessions.map f) (hc : st'.currentId = st.currentId) :
    StoreInv st' := by
  refine ⟨?_, ?_⟩
  · rw [hs]
    intro hmn
    exact h.1 (List.map_eq_nil_iff.mp hmn)
  · rw [hs, hc]
    exact (exists_id_map st.sessions f hf st.currentId).mpr h.2

theorem storeInv_newSession (fid : String) (now : Nat) (st : AppState)
    (_h : StoreInv st) : StoreInv (newSession fid now st) :=
  ⟨by simp [newSession], freshSession fid now, by simp [newSession], rfl⟩

theorem storeInv_finishRename (id value : String) (st : AppState)
    (h : StoreInv st) : StoreInv (finishRename id value st) := by
  by_cases hb : jsTrim value = ""
  · simpa [finishRename, hb] using h
  · simp only [finishRename, hb, ne_eq, not_false_eq_true, if_true]
    exact storeInv_of_session_map st _
      (fun s => by by_cases hid : s.id = id <;> simp [hid]) h
      (renameSession id (jsTrim value) st) rfl rfl

theorem storeInv_deleteSession (c : Bool) (id fid : String) (now : Nat) (st : AppState)
    (h : StoreInv st) : StoreInv (deleteSession c id fid now st) := by
  cases c with
  | false => simpa [deleteSession] using h
  | true =>
    simp only [deleteSession, Bool.not_true, Bool.false_eq_true, if_false]
    split
    · exact ⟨by simp, freshSession fid now, by simp, rfl⟩
    · next r0 rest heq => exact ⟨by simp, r0, by simp, rfl⟩

theorem storeInv_clearCurrent (c : Bool) (st : AppState)
    (h : StoreInv st) : StoreInv (clearCurrent c st) := by
  cases c with
  | false => simpa [clearCurrent] using h
  | true =>
    simp only [clearCurrent, Bool.not_true, Bool.false_eq_true, if_false]
    exact storeInv_of_session_map st _
      (fun s => by by_cases hid : s.id = st.currentId <;> simp [hid]) h _ rfl rfl

theorem storeInv_handleSend (net : NetResult) (st st' : AppState)
    (req : Option (List (String × String)))
    (h : StoreInv st) (hs : handleSend net st = some (st', req)) : StoreInv st' := by
  unfold handleSend at hs
  by_cases hg : jsTrim st.input = "" ∨ st.loading = true
  · rw [if_pos hg] at hs
    simp only [Option.some.injEq, Prod.mk.injEq] at hs
    obtain ⟨h1, _⟩ := hs
    subst h1
    exact h
  · rw [if_neg hg] at hs
    cases hf : st.sessions.find? (fun s => s.id = st.currentId) with
    | none => rw [hf] at hs; cases hs
    | some cur =>
      rw [hf] at hs
      have hcur : cur.id = st.currentId := by
        have h2 := List.find?_some hf
        simpa using h2
      cases net with
      | ok answer =>
        simp only [Option.some.injEq, Prod.mk.injEq] at hs
        obtain ⟨h1, _⟩ := hs
        subst h1
        refine storeInv_of_session_map st _ (fun s => ?_) h _ rfl rfl
        by_cases hsid : s.id = st.currentId
        · simp only [hsid, if_true]
          split <;> simp [hcur, hsid]
        · simp [hsid]
      | netError =>
        simp only [Option.some.injEq, Prod.mk.injEq] at hs
        obtain ⟨h1, _⟩ := hs
        subst h1
        refine storeInv_of_session_map st _ (fun s => ?_) h _ rfl rfl
        by_cases hsid : s.id = st.currentId <;> simp [hsid, hcur]
      | httpNotOk =>
        simp only [Option.some.injEq, Prod.mk.injEq] at hs
        obtain ⟨h1, _⟩ := hs
        subst h1
        refine storeInv_of_session_map st _ (fun s => ?_) h _ rfl rfl
        by_cases hsid : s.id = st.currentId <;> simp [hsid, hcur]
      | badJson =>
        simp only [Option.some.injEq, Prod.mk.injEq] at hs
        obtain ⟨h1, _⟩ := hs
        subst h1
        refine storeInv_of_session_map st _ (fun s => ?_) h _ rfl rfl
        by_cases hsid : s.id = st.currentId <;> simp [hsid, hcur]

/-- C1: after initialization completes (the load effect yields a state), the
session list is non-empty and the active id resolves to a member of the
list; creating, renaming, deleting, clearing, sending and selecting all
preserve this invariant. -/
theorem c1_session_invariant :
    (∀ fid now stg st, resolveLoad fid now (loadApp stg) = some st → StoreInv st) ∧
    (∀ fid now st, StoreInv st → StoreInv (newSession fid now st)) ∧
    (∀ id value st, StoreInv st → StoreInv (finishRename id value st)) ∧
    (∀ c id fid now st, StoreInv st → StoreInv (deleteSession c id fid now st)) ∧
    (∀ c st, StoreInv st → StoreInv (clearCurrent c st)) ∧
    (∀ id st, StoreInv st → (∃ s ∈ st.sessions, s.id = id) →
       StoreInv (selectSession id st)) ∧
    (∀ net st st' req, StoreInv st → handleSend net st = some (st', req) →
       StoreInv st') :=
  ⟨fun fid now stg st h => storeInv_resolveLoad fid now (loadApp stg) st h,
   fun fid now st h => storeInv_newSession fid now st h,
   fun id value st h => storeInv_finishRename id value st h,
   fun c id fid now st h => storeInv_deleteSession c id fid now st h,
   fun c st h => storeInv_clearCurrent c st h,
   fun _ _ h hex => ⟨h.1, hex⟩,
   fun net st st' req h hs => storeInv_handleSend net st st' req h hs⟩

/-- Witness for C1: the invariant holds after concrete create, delete,
clear and select operations on the three-session state. -/
theorem c1_session_invariant_witness :
    StoreInv (newSession "n" 5 st3) ∧ StoreInv (deleteSession true "c" "f" 9 st3) ∧
    StoreInv (clearCurrent true st3) ∧ StoreInv (selectSession "b" st3) :=
  ⟨c1_session_invariant.2.1 "n" 5 st3 (by decide),
   c1_session_invariant.2.2.2.1 true "c" "f" 9 st3 (by decide),
   c1_session_invariant.2.2.2.2.1 true st3 (by decide),
   c1_session_invariant.2.2.2.2.2.1 "b" st3 (by decide) (by decide)⟩

/-! ## C2 -/

/-- C2 counterexample: in the three-session state `[sA, sB, sC]` with
session `"c"` active, deleting the non-active session `"a"` reassigns the
active id (to `"b"`, the new first session), refuting the claim that the
active id is left unchanged when the deleted session was not the active
one (App.jsx line 173 sets it unconditionally). -/
theorem c2_delete_counterexample :
    (∃ s ∈ st3.sessions, s.id = "a") ∧ st3.currentId ≠ "a" ∧
    (deleteSession true "a" "f" 9 st3).currentId ≠ st3.currentId := by decide

theorem length_filter_ne_id (l : List Session) (id : String)
    (hnodup : (l.map Session.id).Nodup) (hmem : ∃ s ∈ l, s.id = id) :
    (l.filter (fun s => s.id ≠ id)).length + 1 = l.length := by
  induction l with
  | nil => simp at hmem
  | cons a t ih =>
    rw [List.map_cons, List.nodup_cons] at hnodup
    obtain ⟨hna, hnd⟩ := hnodup
    by_cases ha : a.id = id
    · have hall : ∀ s ∈ t, s.id ≠ id := fun s hs he =>
        hna (by rw [ha, ← he]; exact List.mem_map_of_mem Session.id hs)
      have ht : t.filter (fun s => s.id ≠ id) = t := by
        rw [List.filter_eq_self]
        intro s hs
        exact decide_eq_true (hall s hs)
      rw [List.filter_cons, if_neg (by simp [ha]), ht, List.length_cons]
    · obtain ⟨s, hs, hsid⟩ := hmem
      cases hs with
      | head => exact absurd hsid ha
      | tail _ hs =>
        have hrec := ih hnd ⟨s, hs, hsid⟩
        rw [List.filter_cons, if_pos (decide_eq_true ha), List.length_cons,
          List.length_cons]
        omega

/-- C2 amended: `deleteSession(id)` (after confirmation) removes exactly
the session with that id; when nothing remains a single fresh default
session is created and made active; otherwise the new first remaining
session always becomes active, whether or not the deleted session was the
active one; the session list is never left empty. -/
theorem c2_delete_contract (st : AppState) (id fid : String) (now : Nat)
    (hmem : ∃ s ∈ st.sessions, s.id = id)
    (hnodup : (st.sessions.map Session.id).Nodup) :
    (st.sessions.filter (fun s => s.id ≠ id)).length + 1 = st.sessions.length ∧
    (st.sessions.filter (fun s => s.id ≠ id) = [] →
       (deleteSession true id fid now st).sessions = [freshSession fid now] ∧
       (deleteSession true id fid now st).currentId = fid) ∧
    (∀ r0 rest, st.sessions.filter (fun s => s.id ≠ id) = r0 :: rest →
       (deleteSession true id fid now st).sessions = r0 :: rest ∧
       (deleteSession true id fid now st).currentId = r0.id) ∧
    (deleteSession true id fid now st).sessions ≠ [] := by
  refine ⟨length_filter_ne_id st.sessions id hnodup hmem, ?_, ?_, ?_⟩
  · intro h
    simp only [ne_eq, decide_not] at h
    simp [deleteSession, h, freshSession]
  · intro r0 rest h
    simp only [ne_eq, decide_not] at h
    simp [deleteSession, h]
  · cases h : st.sessions.filter (fun s => s.id ≠ id) with
    | nil =>
      simp only [ne_eq, decide_not] at h
      simp [deleteSession, h]
    | cons r0 rest =>
      simp only [ne_eq, decide_not] at h
      simp [deleteSession, h]

/-- Witness for C2: deleting session `"a"` from the concrete three-session
state removes exactly it, keeps the remaining two in order, makes the new
first session active, and leaves the list non-empty. -/
theorem c2_delete_contract_witness :
    (st3.sessions.filter (fun s => s.id ≠ "a")).length + 1 = st3.sessions.length ∧
    (deleteSession true "a" "f" 9 st3).sessions = [sB, sC] ∧
    (deleteSession true "a" "f" 9 st3).currentId = sB.id ∧
    (deleteSession true "a" "f" 9 st3).sessions ≠ [] := by
  have h := c2_delete_contract st3 "a" "f" 9 (by decide) (by decide)
  have h3 := h.2.2.1 sB [sC] (by decide)
  exact ⟨h.1, h3.1, h3.2, h.2.2.2⟩

/-! ## C7 -/

/-- C7: a send that passes the precondition issues exactly one request whose
body is the ordered `{role, content}` list of every message of the target
session including the just-appended user message; on a 2xx response with an
`answer` field exactly one assistant message with that text is appended and
the busy flag returns to idle with no error. -/
theorem c7_send_success (st : AppState) (cur : Session) (answer : String)
    (hg1 : jsTrim st.input ≠ "") (hg2 : st.loading = false)
    (hfind : st.sessions.find? (fun s => s.id = st.currentId) = some cur) :
    ∃ st', handleSend (NetResult.ok answer) st =
        some (st', some (requestBody (cur.messages ++ [⟨"user", jsTrim st.input⟩]))) ∧
      (∀ s ∈ st'.sessions, s.id = st.currentId →
         s.messages = cur.messages ++ [⟨"user", jsTrim st.input⟩, ⟨"assistant", answer⟩]) ∧
      st'.loading = false ∧ st'.error = "" := by
  unfold handleSend
  rw [if_neg (by simp [hg1, hg2]), hfind]
  refine ⟨_, rfl, ?_, rfl, rfl⟩
  intro s hsmem hsid
  simp only [List.mem_map] at hsmem
  obtain ⟨t, ht, rfl⟩ := hsmem
  by_cases htid : t.id = st.currentId
  · rw [if_pos htid]
    split
    · show (cur.messages ++ [⟨"user", jsTrim st.input⟩]) ++ [⟨"assistant", answer⟩] = _
      rw [List.append_assoc]
      rfl
    · show (cur.messages ++ [⟨"user", jsTrim st.input⟩]) ++ [⟨"assistant", answer⟩] = _
      rw [List.append_assoc]
      rfl
  · rw [if_neg htid] at hsid
    exact absurd hsid htid

/-- Witness for C7: the end-to-end scenario — one empty default session,
send "Rent or buy?", reply arrives — yields the transcript
user/assistant pair and an idle, error-free state. -/
theorem c7_send_success_witness :
    ∃ st', handleSend (NetResult.ok "Consider your timeline...") st0 =
        some (st', some (requestBody ((freshSession "s1" 0).messages ++
          [⟨"user", jsTrim st0.input⟩]))) ∧
      (∀ s ∈ st'.sessions, s.id = st0.currentId →
         s.messages = (freshSession "s1" 0).messages ++
           [⟨"user", jsTrim st0.input⟩, ⟨"assistant", "Consider your timeline..."⟩]) ∧
      st'.loading = false ∧ st'.error = "" :=
  c7_send_success st0 (freshSession "s1" 0) "Consider your timeline..."
    (by decide) rfl (by decide)

/-! ## C8 -/

/-- C8: when the request fails — transport error, non-2xx status, or a body
whose JSON parsing throws — the optimistically appended user message stays
in the transcript, no assistant message is appended, the single generic
error message is surfaced, and the busy flag returns to idle on the
finally-equivalent path. -/
theorem c8_send_failure (st : AppState) (cur : Session) (net : NetResult)
    (hg1 : jsTrim st.input ≠ "") (hg2 : st.loading = false)
    (hfind : st.sessions.find? (fun s => s.id = st.currentId) = some cur)
    (hfail : ∀ a, net ≠ NetResult.ok a) :
    ∃ st' req, handleSend net st = some (st', req) ∧
      (∀ s ∈ st'.sessions, s.id = st.currentId →
         s.messages = cur.messages ++ [⟨"user", jsTrim st.input⟩]) ∧
      st'.error = "Something went wrong. Try again." ∧
      st'.loading = false := by
  have hmain : ∀ s ∈ st.sessions.map (fun s =>
      if s.id = st.currentId then
        { cur with messages := cur.messages ++ [⟨"user", jsTrim st.input⟩] }
      else s), s.id = st.currentId →
      s.messages = cur.messages ++ [(⟨"user", jsTrim st.input⟩ : Message)] := by
    intro s hsmem hsid
    simp only [List.mem_map] at hsmem
    obtain ⟨t, ht, rfl⟩ := hsmem
    by_cases htid : t.id = st.currentId
    · rw [if_pos htid]
    · rw [if_neg htid] at hsid
      exact absurd hsid htid
  unfold handleSend
  rw [if_neg (by simp [hg1, hg2]), hfind]
  cases net with
  | ok answer => exact absurd rfl (hfail answer)
  | netError => exact ⟨_, _, rfl, hmain, rfl, rfl⟩
  | httpNotOk => exact ⟨_, _, rfl, hmain, rfl, rfl⟩
  | badJson => exact ⟨_, _, rfl, hmain, rfl, rfl⟩

/-- Witness for C8: the end-to-end failure scenario — the endpoint answers
HTTP 500 — keeps only the user message, surfaces the generic error, and
returns the busy flag to idle. -/
theorem c8_send_failure_witness :
    ∃ st' req, handleSend NetResult.httpNotOk st0 = some (st', req) ∧
      (∀ s ∈ st'.sessions, s.id = st0.currentId →
         s.messages = (freshSession "s1" 0).messages ++ [⟨"user", jsTrim st0.input⟩]) ∧
      st'.error = "Something went wrong. Try again." ∧
      st'.loading = false :=
  c8_send_failure st0 (freshSession "s1" 0) NetResult.httpNotOk
    (by decide) rfl (by decide) (fun a h => by cases h)

/-! ## C5 -/

/-- C5 counterexample: on the end-to-end run (empty default session, first
message "Rent or buy?", successful reply) the code sets the title to
"Rent or buy?..." — `text.slice(0, 40) + "..."` (App.jsx lines 237-238).
That string is not a punctuation-stripped truncation of the message text of
any length up to 45 characters: the claimed titling policy does not
describe the code. -/
theorem c5_auto_title_counterexample :
    titleAfter (handleSend (NetResult.ok "Consider your timeline...") st0) =
      "Rent or buy?..." ∧
    ∀ n ∈ List.range 46, stripPunct (jsSlice n "Rent or buy?") ≠ "Rent or buy?..." := by
  decide

/-- C5 amended: a successful send whose appended user message found an empty
message list sets the session title to the first 40 characters of that
message's text followed by "..." — punctuation retained, regardless of
whether the session still had its default title, so even a user-assigned
title of an empty session is overwritten; a successful send onto a
non-empty message list never changes the title, and a failed send never
changes the title (so a first message appended by a failed send sets no
title at all). -/
theorem c5_auto_title_contract (st : AppState) (cur : Session) (answer : String)
    (hg1 : jsTrim st.input ≠ "") (hg2 : st.loading = false)
    (hfind : st.sessions.find? (fun s => s.id = st.currentId) = some cur) :
    (∃ st' req, handleSend (NetResult.ok answer) st = some (st', req) ∧
       ∀ s ∈ st'.sessions, s.id = st.currentId →
         s.title = if cur.messages = [] then jsSlice 40 (jsTrim st.input) ++ "..."
                   else cur.title) ∧
    (∀ net : NetResult, (∀ a, net ≠ NetResult.ok a) →
       ∃ st' req, handleSend net st = some (st', req) ∧
         ∀ s ∈ st'.sessions, s.id = st.currentId → s.title = cur.title) := by
  constructor
  · unfold handleSend
    rw [if_neg (by simp [hg1, hg2]), hfind]
    refine ⟨_, _, rfl, ?_⟩
    intro s hsmem hsid
    simp only [List.mem_map] at hsmem
    obtain ⟨t, ht, rfl⟩ := hsmem
    by_cases htid : t.id = st.currentId
    · rw [if_pos htid]
      by_cases hemp : cur.messages = []
      · rw [if_pos hemp]
        have hlen : (cur.messages ++
            [(⟨"user", jsTrim st.input⟩ : Message)]).length = 1 := by
          rw [hemp]
          rfl
        rw [if_pos hlen]
        show jsSlice 40 ((cur.messages ++
          [(⟨"user", jsTrim st.input⟩ : Message)]).headI.text) ++ "..." = _
        rw [hemp]
        rfl
      · rw [if_neg hemp]
        have hlen : ¬(cur.messages ++
            [(⟨"user", jsTrim st.input⟩ : Message)]).length = 1 := by
          rw [List.length_append]
          cases hm : cur.messages with
          | nil => exact absurd hm hemp
          | cons x xs => simp
        rw [if_neg hlen]
    · rw [if_neg htid] at hsid
      exact absurd hsid htid
  · intro net hnet
    unfold handleSend
    rw [if_neg (by simp [hg1, hg2]), hfind]
    cases net with
    | ok a => exact absurd rfl (hnet a)
    | netError =>
      refine ⟨_, _, rfl, ?_⟩
      intro s hsmem hsid
      simp only [List.mem_map] at hsmem
      obtain ⟨t, ht, rfl⟩ := hsmem
      by_cases htid : t.id = st.currentId
      · rw [if_pos htid]
      · rw [if_neg htid] at hsid
        exact absurd hsid htid
    | httpNotOk =>
      refine ⟨_, _, rfl, ?_⟩
      intro s hsmem hsid
      simp only [List.mem_map] at hsmem
      obtain ⟨t, ht, rfl⟩ := hsmem
      by_cases htid : t.id = st.currentId
      · rw [if_pos htid]
      · rw [if_neg htid] at hsid
        exact absurd hsid htid
    | badJson =>
      refine ⟨_, _, rfl, ?_⟩
      intro s hsmem hsid
      simp only [List.mem_map] at hsmem
      obtain ⟨t, ht, rfl⟩ := hsmem
      by_cases htid : t.id = st.currentId
      · rw [if_pos htid]
      · rw [if_neg htid] at hsid
        exact absurd hsid htid

/-- Witness for C5: on the first-run state, a successful send sets the
active session's title according to the slice-plus-ellipsis rule. -/
theorem c5_auto_title_contract_witness :
    ∃ st' req, handleSend (NetResult.ok "yes") st0 = some (st', req) ∧
      ∀ s ∈ st'.sessions, s.id = st0.currentId →
        s.title = if (freshSession "s1" 0).messages = [] then
                    jsSlice 40 (jsTrim st0.input) ++ "..."
                  else (freshSession "s1" 0).title :=
  (c5_auto_title_contract st0 (freshSession "s1" 0) "yes" (by decide) rfl (by decide)).1

/-! ## C10 -/

/-- C10: per-session mutations are frame-local. Renaming leaves every
session at a position whose id differs untouched and preserves length and
order; clearing empties only the active session's messages, preserving its
id, title and creation time, and leaves the others untouched; any completed
send leaves every session other than the active one untouched. -/
theorem c10_frame_conditions (st : AppState) :
    (∀ id value,
       (finishRename id value st).sessions.length = st.sessions.length ∧
       (∀ (i : Nat) (s : Session), st.sessions[i]? = some s → s.id ≠ id →
          (finishRename id value st).sessions[i]? = some s)) ∧
    (∀ c, (clearCurrent c st).sessions.length = st.sessions.length ∧
       (∀ (i : Nat) (s : Session), st.sessions[i]? = some s → s.id ≠ st.currentId →
          (clearCurrent c st).sessions[i]? = some s) ∧
       (∀ (i : Nat) (s : Session), st.sessions[i]? = some s → s.id = st.currentId →
          (clearCurrent true st).sessions[i]? = some { s with messages := [] })) ∧
    (∀ net st' req, handleSend net st = some (st', req) →
       st'.sessions.length = st.sessions.length ∧
       (∀ (i : Nat) (s : Session), st.sessions[i]? = some s → s.id ≠ st.currentId →
          st'.sessions[i]? = some s)) := by
  have hclear : ∀ (i : Nat) (s : Session), st.sessions[i]? = some s →
      (clearCurrent true st).sessions[i]? =
        some (if s.id = st.currentId then { s with messages := [] } else s) := by
    intro i s hi
    show (st.sessions.map _)[i]? = _
    rw [List.getElem?_map, hi, Option.map_some']
  refine ⟨?_, ?_, ?_⟩
  · intro id value
    by_cases hb : jsTrim value = ""
    · unfold finishRename
      rw [if_neg (not_not_intro hb)]
      exact ⟨rfl, fun i s hi _ => hi⟩
    · unfold finishRename
      rw [if_pos hb]
      constructor
      · show (st.sessions.map _).length = _
        rw [List.length_map]
      · intro i s hi hne
        show (st.sessions.map _)[i]? = some s
        rw [List.getElem?_map, hi, Option.map_some', if_neg hne]
  · intro c
    refine ⟨?_, ?_, ?_⟩
    · cases c with
      | false => rfl
      | true =>
        show (st.sessions.map _).length = _
        rw [List.length_map]
    · intro i s hi hne
      cases c with
      | false => exact hi
      | true =>
        rw [hclear i s hi, if_neg hne]
    · intro i s hi he
      rw [hclear i s hi, if_pos he]
  · intro net st' req h
    unfold handleSend at h
    by_cases hg : jsTrim st.input = "" ∨ st.loading = true
    · rw [if_pos hg] at h
      simp only [Option.some.injEq, Prod.mk.injEq] at h
      obtain ⟨h1, _⟩ := h
      subst h1
      exact ⟨rfl, fun i s hi _ => hi⟩
    · rw [if_neg hg] at h
      cases hf : st.sessions.find? (fun s => s.id = st.currentId) with
      | none => rw [hf] at h; cases h
      | some cur =>
        rw [hf] at h
        have hframe : ∀ x : Session, ∀ (i : Nat) (s : Session), st.sessions[i]? = some s →
            s.id ≠ st.currentId →
            (st.sessions.map (fun t =>
              if t.id = st.currentId then x else t))[i]? = some s := by
          intro x i s hi hne
          rw [List.getElem?_map, hi, Option.map_some', if_neg hne]
        cases net with
        | ok answer =>
          simp only [Option.some.injEq, Prod.mk.injEq] at h
          obtain ⟨h1, _⟩ := h
          subst h1
          refine ⟨?_, ?_⟩
          · show (st.sessions.map _).length = _
            rw [List.length_map]
          · exact hframe _
        | netError =>
          simp only [Option.some.injEq, Prod.mk.injEq] at h
          obtain ⟨h1, _⟩ := h
          subst h1
          refine ⟨?_, ?_⟩
          · show (st.sessions.map _).length = _
            rw [List.length_map]
          · exact hframe _
        | httpNotOk =>
          simp only [Option.some.injEq, Prod.mk.injEq] at h
          obtain ⟨h1, _⟩ := h
          subst h1
          refine ⟨?_, ?_⟩
          · show (st.sessions.map _).length = _
            rw [List.length_map]
          · exact hframe _
        | badJson =>
          simp only [Option.some.injEq, Prod.mk.injEq] at h
          obtain ⟨h1, _⟩ := h
          subst h1
          refine ⟨?_, ?_⟩
          · show (st.sessions.map _).length = _
            rw [List.length_map]
          · exact hframe _

/-- Witness for C10: on the concrete state, renaming session "a" leaves the
session at index 1 untouched, and clearing the active session "c" empties
only its message list while keeping id, title and creation time. -/
theorem c10_frame_conditions_witness :
    (finishRename "a" "Budget" st3).sessions[1]? = some sB ∧
    (clearCurrent true st3).sessions[2]? = some { sC with messages := [] } ∧
    (clearCurrent true st3).sessions.length = st3.sessions.length := by
  have h := c10_frame_conditions st3
  exact ⟨(h.1 "a" "Budget").2 1 sB (by decide) (by decide),
         (h.2.1 true).2.2 2 sC (by decide) (by decide),
         (h.2.1 true).1⟩
